import Mathlib

/-!
Verification of the kernel-updater core: a shallow embedding of the
version/configuration/pipeline logic of the `kernel-updater` repository
(src/version.rs, src/config.rs, src/args.rs, src/error.rs, src/dkms.rs,
src/kernel.rs, src/utils.rs, src/main.rs) together with proofs of the
specification claims about it.

Modelling conventions:
- Rust `u32` values are modelled as `Nat`; the `u32` range only matters at
  the parsing boundary (`parseU32` rejects values ≥ 2^32, as Rust's
  `str::parse::<u32>` does via its overflow error).
- Rust strings are Lean `String`s; the Rust string primitives used by the
  source (`split`, `trim`, `lines`, `contains`, `starts_with`, decimal
  formatting of integers) are given executable models on `List Char`.
- External effects (process execution, filesystem) are an explicit
  environment `Env` of oracles, matching the spec's external-process and
  filesystem boundary; each stage function is a transcription of the
  corresponding Rust function against that environment.
- The one panicking function (`dkms_remove`, whose `expect`s abort the
  process) returns `Option (Except _ _)`, with `none` denoting the panic.
-/

namespace KernelUpdater

/-- Decimal digit character for a value 0–9 (model of Rust's integer
Display, digit by digit). -/
def digitChar : Nat → Char
  | 0 => '0'
  | 1 => '1'
  | 2 => '2'
  | 3 => '3'
  | 4 => '4'
  | 5 => '5'
  | 6 => '6'
  | 7 => '7'
  | 8 => '8'
  | _ => '9'

/-- Fuel-driven most-significant-first decimal digit list of a natural
number; `fuel > n` suffices for the recursion. -/
def digitsAux : Nat → Nat → List Char
  | 0, _ => []
  | fuel + 1, n =>
    if n < 10 then [digitChar n]
    else digitsAux fuel (n / 10) ++ [digitChar (n % 10)]

/-- Model of Rust's `format!("{}", n)` for an unsigned integer: canonical
decimal representation, no sign, no leading zeros. -/
def natStr (n : Nat) : String := ⟨digitsAux (n + 1) n⟩

/-- Numeric value of a digit character. -/
def digitVal (c : Char) : Nat := c.toNat - 48

/-- ASCII digit test (the only digits Rust's `u32::from_str` accepts). -/
def isDigitChar (c : Char) : Bool := 48 ≤ c.toNat && c.toNat ≤ 57

/-- Value of a most-significant-first digit list. -/
def decNum (l : List Char) : Nat := l.foldl (fun acc c => 10 * acc + digitVal c) 0

/-- Model of Rust's `str::parse::<u32>`: an optional leading `+`, then a
nonempty run of ASCII digits, value within the `u32` range; anything else
(empty, stray characters, overflow) is a parse error, here `none`. -/
def parseU32 (s : String) : Option Nat :=
  let l := s.data
  let l2 := if l.head? = some '+' then l.tail else l
  if l2.isEmpty then none
  else if l2.all isDigitChar then
    if decNum l2 < 4294967296 then some (decNum l2) else none
  else none

/-- Whitespace test used by the `trim` model (ASCII whitespace; the claims
never involve non-ASCII whitespace). -/
def isWsChar (c : Char) : Bool := c = ' ' || c = '\t' || c = '\n' || c = '\r'

/-- Trim whitespace from both ends of a character list. -/
def trimChars (l : List Char) : List Char :=
  ((l.dropWhile isWsChar).reverse.dropWhile isWsChar).reverse

/-- Model of Rust's `str::trim`. -/
def rustTrim (s : String) : String := ⟨trimChars s.data⟩

/-- Model of Rust's `str::split` on a character predicate: splits at every
matching character, keeping empty pieces, and yields one (possibly empty)
piece even for the empty input. -/
def splitChars (p : Char → Bool) : List Char → List (List Char)
  | [] => [[]]
  | c :: rest =>
    if p c then [] :: splitChars p rest
    else
      match splitChars p rest with
      | [] => [[c]]
      | piece :: more => (c :: piece) :: more

/-- String-level wrapper for `splitChars`. -/
def rustSplit (p : Char → Bool) (s : String) : List String :=
  (splitChars p s.data).map String.mk

/-- Model of Rust's `str::lines`: split on newline, drop a final empty
piece (produced by a trailing newline or by the empty string), and strip a
trailing carriage return from each line. -/
def rustLines (s : String) : List String :=
  let ps := splitChars (fun c => c = '\n') s.data
  let ps := if ps.getLast? = some [] then ps.dropLast else ps
  ps.map (fun l => ⟨if l.getLast? = some '\r' then l.dropLast else l⟩)

/-- Substring occurrence test on character lists (model of Rust's
`str::contains` with a string pattern). -/
def hasSubAux : List Char → List Char → Bool
  | hay, needle =>
    needle.isPrefixOf hay ||
      match hay with
      | [] => false
      | _ :: t => hasSubAux t needle

/-- Model of Rust's `str::contains(pattern)` for a string pattern. -/
def containsSub (s pat : String) : Bool := hasSubAux s.data pat.data

/-- Model of Rust's `str::starts_with` for a string pattern. -/
def startsWithStr (s pat : String) : Bool := pat.data.isPrefixOf s.data

/-- The version triple of `src/version.rs` (`u32` components modelled as
`Nat`; parsing enforces the `u32` bound). -/
structure Version where
  major : Nat
  minor : Nat
  patch : Nat
deriving DecidableEq, Repr

/-- The derived lexicographic `<=` of Rust's
`#[derive(PartialOrd, Ord)]` on `Version` (field declaration order:
major, then minor, then patch). -/
def Version.leb (a b : Version) : Bool :=
  if a.major < b.major then true
  else if a.major = b.major then
    if a.minor < b.minor then true
    else if a.minor = b.minor then a.patch ≤ b.patch
    else false
  else false

/-- Model of the `Display` impl for `Version`: always
`"major.minor.patch"`. -/
def versionToString (v : Version) : String :=
  natStr v.major ++ "." ++ natStr v.minor ++ "." ++ natStr v.patch

/-- The subcommands of `src/args.rs`. -/
inductive Commands where
  | kernelCompile
  | kernelInstall
  | dkmsInstall
deriving DecidableEq, Repr

/-- The downloader choice of `src/args.rs`. -/
inductive Downloader where
  | curl
  | wget
deriving DecidableEq, Repr

/-- The parsed command-line arguments of `src/args.rs` (clap-level
parsing itself is out of scope; `Config::new` consumes this record). -/
structure Arguments where
  command : Option Commands
  downloader : Downloader
  suffix : String
  new : Version
  old : Option Version
deriving DecidableEq, Repr

/-- The error enumeration of `src/error.rs`. Payloads irrelevant to the
claims (`std::io::Error` details, `ParseIntError` details, UTF-8 error
details) are dropped; an `ExitStatus` is modelled as its code. -/
inductive KernelUpdaterError where
  | ioError
  | commandExecutionError (command : String) (args : String) (status : Nat)
  | utf8OutputError (command : String)
  | versionComparisonError (new old : Version)
  | missingRequiredArgument (argument_name : String) (command : Option Commands)
  | dkmsModuleNotFound
  | dkmsStatusParseError (output reason : String)
  | kernelConfigNotFound (path : String)
  | kernelNotConfigured (src_dir : String) (version : Version)
  | kernelBinaryNotFound (path src_dir : String) (version : Version)
  | versionParseIntError
  | versionParseFormatError (input : String)
deriving DecidableEq, Repr

/-- Sequential parse of the dot-separated components: each component is
trimmed then parsed as `u32`; the first failure wins (the semantics of
Rust's `collect::<Result<Vec<u32>, ParseIntError>>()`). -/
def parseComponents : List String → Option (List Nat)
  | [] => some []
  | p :: rest =>
    match parseU32 (rustTrim p) with
    | none => none
    | some n => (parseComponents rest).map (n :: ·)

/-- Model of `Version::from_str` (src/version.rs lines 17–36): split on
`'.'`, trim-and-parse every component (first integer failure yields the
integer error), then require exactly three components (otherwise the
format error). -/
def Version.from_str (s : String) : Except KernelUpdaterError Version :=
  match parseComponents (rustSplit (fun c => c = '.') s) with
  | none => .error .versionParseIntError
  | some [a, b, c] => .ok ⟨a, b, c⟩
  | some _ => .error (.versionParseFormatError s)

/-- Model of `PathBuf::join` with a relative component, for the absolute
base paths the program uses. -/
def pathJoin (base name : String) : String := base ++ "/" ++ name

/-- The validated configuration of `src/config.rs` (paths as strings). -/
structure Config where
  version_old : Option Version
  version_new : Version
  command : Option Commands
  kernel_url_base : String
  kernel_src_base : String
  kernel_module_base : String
  kernel_config_base : String
  custom_kernel_suffix : String
  config_file_path : String
  kernel_src_dir_name : String
  kernel_src_dir_path : String
  tarball_name : String
  download_link : String
  kernel_ident_name_new : String
  kernel_ident_name_old : Option String
  vmlinuz_install_path : String
  downloader : Downloader
deriving DecidableEq, Repr

/-- The derived-field computation of `Config::new` (src/config.rs lines
76–129), reached only after both validations pass. -/
def Config.derive (args : Arguments) : Config :=
  let kernel_url_base := "https://cdn.kernel.org/pub/linux/kernel/v6.x"
  let kernel_src_base := "/lib/modules"
  let kernel_module_base := "/lib/modules"
  let kernel_config_base := "/lib/modules"
  let custom_kernel_suffix := args.suffix
  let config_file_path := pathJoin kernel_config_base ("config-" ++ custom_kernel_suffix)
  let kernel_src_dir_name :=
    if args.new.patch = 0 then "linux-" ++ natStr args.new.major ++ "." ++ natStr args.new.minor
    else "linux-" ++ versionToString args.new
  let kernel_src_dir_path := pathJoin kernel_src_base kernel_src_dir_name
  let tarball_name :=
    if args.new.patch = 0 then
      "linux-" ++ natStr args.new.major ++ "." ++ natStr args.new.minor ++ ".tar.xz"
    else "linux-" ++ versionToString args.new ++ ".tar.xz"
  let download_link := kernel_url_base ++ "/" ++ tarball_name
  let kernel_ident_name_new :=
    if args.new.patch = 0 then
      natStr args.new.major ++ "." ++ natStr args.new.minor ++ "-" ++ custom_kernel_suffix
    else versionToString args.new ++ "-" ++ custom_kernel_suffix
  let kernel_ident_name_old :=
    args.old.map (fun v => versionToString v ++ "-" ++ custom_kernel_suffix)
  let vmlinuz_install_path :=
    pathJoin "/boot" ("vmlinuz-" ++ natStr args.new.major ++ "." ++ natStr args.new.minor)
  { version_old := args.old
    version_new := args.new
    command := args.command
    kernel_url_base := kernel_url_base
    kernel_src_base := kernel_src_base
    kernel_module_base := kernel_module_base
    kernel_config_base := kernel_config_base
    custom_kernel_suffix := custom_kernel_suffix
    config_file_path := config_file_path
    kernel_src_dir_name := kernel_src_dir_name
    kernel_src_dir_path := kernel_src_dir_path
    tarball_name := tarball_name
    download_link := download_link
    kernel_ident_name_new := kernel_ident_name_new
    kernel_ident_name_old := kernel_ident_name_old
    vmlinuz_install_path := vmlinuz_install_path
    downloader := args.downloader }

/-- Validation 2 of `Config::new` (src/config.rs lines 60–73): the
default command and `dkms-install` require `--old`; `kernel-compile` and
`kernel-install` do not. On success the derived fields are computed. -/
def Config.validated (args : Arguments) : Except KernelUpdaterError Config :=
  match args.command with
  | some .dkmsInstall | none =>
    if args.old.isNone then
      .error (.missingRequiredArgument "--old" args.command)
    else .ok (Config.derive args)
  | some .kernelCompile | some .kernelInstall => .ok (Config.derive args)

/-- Model of `Config::new` (src/config.rs lines 40–130): validation 1
(if `--old` is present, `--new` must be strictly greater) runs first for
every command, then validation 2 and the field derivation. -/
def Config.new (args : Arguments) : Except KernelUpdaterError Config :=
  match args.old with
  | some old_version =>
    if Version.leb args.new old_version then
      .error (.versionComparisonError args.new old_version)
    else Config.validated args
  | none => Config.validated args

/-- Three-way outcome of `std::fs::metadata` as the source matches on it:
the path exists, it does not exist (`ErrorKind::NotFound`), or some other
I/O error occurred. -/
inductive MetadataResult where
  | found
  | notFound
  | otherError
deriving DecidableEq, Repr

/-- Outcome of `std::fs::symlink_metadata` as `ensure_symlink` matches on
it: an existing directory, an existing non-directory entry, a missing
path, or some other I/O error. -/
inductive SymlinkMetadataResult where
  | dir
  | nondir
  | notFound
  | otherError
deriving DecidableEq, Repr

/-- The external-process and filesystem boundary the stages run against
(spec section 6). `run_command` and `run_command_output` are the oracles
behind `utils::run_command` / `utils::run_command_output` (success, or a
non-zero-exit / spawn / UTF-8 failure already mapped to the error type);
the filesystem oracles are keyed by the path arguments the source passes. -/
structure Env where
  run_command : String → List String → Except KernelUpdaterError Unit
  run_command_output : String → List String → Except KernelUpdaterError String
  metadata : String → MetadataResult
  symlink_metadata : String → SymlinkMetadataResult
  create_dir_all : String → Except KernelUpdaterError Unit
  set_current_dir : String → Except KernelUpdaterError Unit
  remove_dir : String → Except KernelUpdaterError Unit
  remove_file : String → Except KernelUpdaterError Unit
  symlink : String → String → Except KernelUpdaterError Unit
  available_parallelism : Except KernelUpdaterError Nat

/-- Model of `utils::get_cores`: available logical cores minus `free`,
floored at one, rendered as the string `make -j` expects. -/
def get_cores (env : Env) (free : Nat) : Except KernelUpdaterError String := do
  let num_cpus ← env.available_parallelism
  let cores_to_use := if free < num_cpus ∧ 1 ≤ num_cpus - free then num_cpus - free else 1
  pure (natStr cores_to_use)

/-- Model of `dkms::get_nvidia_version` (src/dkms.rs lines 9–40): capture
`dkms status`; fail with the module-absent error when the output does not
contain `"nvidia"` anywhere; otherwise take the first line that trims to
a `"nvidia/"` beginning and contains a comma, split it on `/` and `,`,
and return the trimmed second piece; if no such line exists the
status-parse error carries the output. -/
def get_nvidia_version (env : Env) : Except KernelUpdaterError String := do
  let dkms_output ← env.run_command_output "dkms" ["status"]
  if ¬ containsSub dkms_output "nvidia" then
    throw .dkmsModuleNotFound
  else
    let line? := (rustLines dkms_output).find?
      (fun line => startsWithStr (rustTrim line) "nvidia/" && line.data.contains ',')
    let piece? := line?.bind (fun line => (splitChars (fun c => c = '/' || c = ',') line.data)[1]?)
    match piece? with
    | none =>
      throw (.dkmsStatusParseError dkms_output "Could not extract version from line format")
    | some piece => pure (rustTrim ⟨piece⟩)

/-- The kernel identifier `dkms_install` recomputes for its `-k` argument
(src/dkms.rs line 56): always `"major.minor.patch-suffix"`, via the
`Display` of the new version. -/
def dkmsKernelNameNew (config : Config) : String :=
  versionToString config.version_new ++ "-" ++ config.custom_kernel_suffix

/-- Model of `dkms::dkms_install` (src/dkms.rs lines 45–79): look up the
driver version, then run `dkms install --force nvidia/VERSION -k IDENT`;
every failure propagates. -/
def dkms_install (config : Config) (env : Env) : Except KernelUpdaterError Unit := do
  let dkms_module_version ← get_nvidia_version env
  let dkms_module_spec := "nvidia/" ++ dkms_module_version
  let kernel_name_new := dkmsKernelNameNew config
  env.run_command "dkms" ["install", "--force", dkms_module_spec, "-k", kernel_name_new]

/-- Model of `dkms::dkms_remove` (src/dkms.rs lines 84–158). The two
`expect`s on the old version and old identifier panic when absent
(`none`). The driver-version lookup propagates its error; the removal
command's result is inspected and every failure of it — non-zero exit or
any other error — is downgraded to a logged warning and success. -/
def dkms_remove (config : Config) (env : Env) : Option (Except KernelUpdaterError Unit) :=
  match config.version_old with
  | none => none
  | some _ =>
    match config.kernel_ident_name_old with
    | none => none
    | some kernel_name_old =>
      match get_nvidia_version env with
      | .error e => some (.error e)
      | .ok dkms_module_version =>
        let dkms_module_spec := "nvidia/" ++ dkms_module_version
        let remove_args := ["remove", dkms_module_spec, "-k", kernel_name_old]
        match env.run_command_output "dkms" remove_args with
        | .ok _ => some (.ok ())
        | .error _ => some (.ok ())

/-- Model of `kernel::kernel_compile` (src/kernel.rs lines 10–129):
create the source base, enter it, download and extract the tarball, enter
the tree, copy the config template (missing template is the dedicated
error), run `make olddefconfig`, require `.config` to exist afterwards,
then build with the computed parallelism. -/
def kernel_compile (config : Config) (env : Env) : Except KernelUpdaterError Unit := do
  env.create_dir_all config.kernel_src_base
  env.set_current_dir config.kernel_src_base
  (match config.downloader with
   | .curl => env.run_command "curl" ["-fL", config.download_link, "-o", config.tarball_name]
   | .wget => env.run_command "wget" [config.download_link])
  env.run_command "tar" ["-Jxvf", config.tarball_name]
  env.set_current_dir config.kernel_src_dir_path
  (match env.metadata config.config_file_path with
   | .found => env.run_command "/usr/bin/cp" [config.config_file_path, ".config"]
   | .notFound => throw (.kernelConfigNotFound config.config_file_path)
   | .otherError => throw .ioError)
  env.run_command "make" ["olddefconfig"]
  (match env.metadata ".config" with
   | .found => pure ()
   | .notFound => throw (.kernelNotConfigured config.kernel_src_dir_path config.version_new)
   | .otherError => throw .ioError)
  let cores ← get_cores env 1
  env.run_command "make" ["-j", cores]

/-- The installed-kernel identifier `kernel_install` recomputes for the
module directory (src/kernel.rs line 144): always
`"major.minor.patch-suffix"`, via the `Display` of the new version. -/
def kernelInstallIdentName (config : Config) : String :=
  versionToString config.version_new ++ "-" ++ config.custom_kernel_suffix

/-- Model of `kernel::ensure_symlink` (src/kernel.rs lines 233–267):
remove whatever occupies the link path (directory via `remove_dir`,
anything else via `remove_file`; a missing path is fine), then create the
symlink. -/
def ensure_symlink (env : Env) (link_path link_target : String) :
    Except KernelUpdaterError Unit := do
  (match env.symlink_metadata link_path with
   | .dir => env.remove_dir link_path
   | .nondir => env.remove_file link_path
   | .notFound => pure ()
   | .otherError => throw .ioError)
  env.symlink link_target link_path

/-- Model of `kernel::kernel_install` (src/kernel.rs lines 136–227):
enter the compiled tree, require the compiled image, install modules,
copy the image to the boot path, and ensure the `build` and `source`
symlinks in the module directory named by the recomputed identifier. -/
def kernel_install (config : Config) (env : Env) : Except KernelUpdaterError Unit := do
  let kernel_ident_name := kernelInstallIdentName config
  let modules_install_path := pathJoin config.kernel_module_base kernel_ident_name
  env.set_current_dir config.kernel_src_dir_path
  (match env.metadata "arch/x86/boot/bzImage" with
   | .found => pure ()
   | .notFound =>
     throw (.kernelBinaryNotFound "arch/x86/boot/bzImage" config.kernel_src_dir_path
       config.version_new)
   | .otherError => throw .ioError)
  env.run_command "make" ["modules_install"]
  env.run_command "/usr/bin/cp" ["arch/x86/boot/bzImage", config.vmlinuz_install_path]
  ensure_symlink env (pathJoin modules_install_path "build") config.kernel_src_dir_path
  ensure_symlink env (pathJoin modules_install_path "source") config.kernel_src_dir_path

/-- Model of `kernel::mkinitcpio` (src/kernel.rs lines 272–288): derive
the profile name `"linux{major}{minor}_{suffix}"` and run the generator. -/
def mkinitcpio (config : Config) (env : Env) : Except KernelUpdaterError Unit := do
  let mkinitcpio_profile_name :=
    "linux" ++ natStr config.version_new.major ++ natStr config.version_new.minor ++ "_" ++
      config.custom_kernel_suffix
  env.run_command "mkinitcpio" ["-p", mkinitcpio_profile_name]

/-- Model of `utils::update_grub`: run the bootloader updater with no
arguments. -/
def update_grub (env : Env) : Except KernelUpdaterError Unit :=
  env.run_command "update-grub" []

/-- The stages of the pipeline (spec section 4.4 naming). -/
inductive Stage where
  | compile
  | install
  | dkmsRemove
  | dkmsBuild
  | initramfs
  | bootloaderUpdate
deriving DecidableEq, Repr

/-- The stage sequence `main::run` executes for each operation mode
(src/main.rs lines 32–95). -/
def stagesFor : Option Commands → List Stage
  | some .kernelCompile => [.compile]
  | some .kernelInstall => [.install, .initramfs, .bootloaderUpdate]
  | some .dkmsInstall => [.dkmsRemove, .dkmsBuild, .initramfs, .bootloaderUpdate]
  | none => [.compile, .install, .dkmsRemove, .dkmsBuild, .initramfs, .bootloaderUpdate]

/-- The outcome of one stage against the environment (`none` is a panic,
which only `dkms_remove` can produce). -/
def stageResult (config : Config) (env : Env) : Stage → Option (Except KernelUpdaterError Unit)
  | .compile => some (kernel_compile config env)
  | .install => some (kernel_install config env)
  | .dkmsRemove => dkms_remove config env
  | .dkmsBuild => some (dkms_install config env)
  | .initramfs => some (mkinitcpio config env)
  | .bootloaderUpdate => some (update_grub env)

/-- Generic sequential driver: run the stages in order, stop at the first
stage that fails or panics, and record the trace of stages actually
entered. -/
def execStages (results : Stage → Option (Except KernelUpdaterError Unit)) :
    List Stage → List Stage × Option (Except KernelUpdaterError Unit)
  | [] => ([], some (.ok ()))
  | s :: rest =>
    match results s with
    | none => ([s], none)
    | some (.error e) => ([s], some (.error e))
    | some (.ok ()) =>
      let r := execStages results rest
      (s :: r.1, r.2)

/-- Literal transcription of `main::run`'s dispatch on the subcommand
(src/main.rs lines 32–95): each branch chains its stage calls with `?`,
and a `dkms_remove` panic aborts everything (`none`). -/
def run (config : Config) (env : Env) : Option (Except KernelUpdaterError Unit) :=
  match config.command with
  | some .kernelCompile => some (kernel_compile config env)
  | some .kernelInstall =>
    some (do
      kernel_install config env
      mkinitcpio config env
      update_grub env)
  | some .dkmsInstall =>
    match dkms_remove config env with
    | none => none
    | some (.error e) => some (.error e)
    | some (.ok ()) =>
      some (do
        dkms_install config env
        mkinitcpio config env
        update_grub env)
  | none =>
    match kernel_compile config env with
    | .error e => some (.error e)
    | .ok () =>
      match kernel_install config env with
      | .error e => some (.error e)
      | .ok () =>
        match dkms_remove config env with
        | none => none
        | some (.error e) => some (.error e)
        | some (.ok ()) =>
          some (do
            dkms_install config env
            mkinitcpio config env
            update_grub env)

/-- Instrumented runner: the mode's stage list under the generic driver.
Its outcome component coincides with `run` (proved below). -/
def runT (config : Config) (env : Env) : List Stage × Option (Except KernelUpdaterError Unit) :=
  execStages (stageResult config env) (stagesFor config.command)

/-- The version-dependent core shared by the three derived names of
`Config::new`: `"major.minor"` for a zero patch, the full
`"major.minor.patch"` otherwise. -/
def verPartStr (v : Version) : String :=
  if v.patch = 0 then natStr v.major ++ "." ++ natStr v.minor else versionToString v

/-- Arguments for a compile-only run of `6.15.4` with suffix `"X"`. -/
def argsC4a : Arguments where
  command := some .kernelCompile
  downloader := .curl
  suffix := "X"
  new := ⟨6, 15, 4⟩
  old := none

/-- Arguments for a compile-only run of the zero-patch `6.15.0` with
suffix `"X"`. -/
def argsC4b : Arguments where
  command := some .kernelCompile
  downloader := .curl
  suffix := "X"
  new := ⟨6, 15, 0⟩
  old := none

/-- Arguments for a default (full) run `6.15.3 -> 6.15.4` with suffix
`"X"`. -/
def argsFullX : Arguments where
  command := none
  downloader := .curl
  suffix := "X"
  new := ⟨6, 15, 4⟩
  old := some ⟨6, 15, 3⟩

/-- Arguments for a default run whose old version is the zero-patch
`6.15.0`. -/
def argsOldZero : Arguments where
  command := none
  downloader := .curl
  suffix := "X"
  new := ⟨6, 16, 0⟩
  old := some ⟨6, 15, 0⟩

/-- The configuration of the full `6.15.3 -> 6.15.4` run. -/
def cfgFullX : Config := Config.derive argsFullX

/-- An environment in which every external operation succeeds and every
captured command prints `text`. -/
def statusEnv (text : String) : Env where
  run_command := fun _ _ => .ok ()
  run_command_output := fun _ _ => .ok text
  metadata := fun _ => .found
  symlink_metadata := fun _ => .nondir
  create_dir_all := fun _ => .ok ()
  set_current_dir := fun _ => .ok ()
  remove_dir := fun _ => .ok ()
  remove_file := fun _ => .ok ()
  symlink := fun _ _ => .ok ()
  available_parallelism := .ok 8

/-- A `dkms status` line as in the source's own doc comment. -/
def nvidiaStatusLine : String := "nvidia/550.135, 6.11.10-2-OTHER, x86_64: installed"

/-- The all-success environment. -/
def envAllOk : Env := statusEnv nvidiaStatusLine

/-- All-success environment except that `make modules_install` (run only
by the Install stage) exits non-zero. -/
def envInstallFail : Env := { envAllOk with
  run_command := fun prog args =>
    if prog = "make" ∧ args = ["modules_install"] then
      .error (.commandExecutionError "make" "modules_install" 2)
    else .ok () }

/-- All-success environment except that `dkms status` (the driver-version
lookup) exits non-zero. -/
def envDkmsStatusCmdFail : Env := { envAllOk with
  run_command_output := fun prog args =>
    if prog = "dkms" ∧ args = ["status"] then
      .error (.commandExecutionError "dkms" "status" 1)
    else .ok nvidiaStatusLine }

/-- All-success environment except that the `dkms remove ...` invocation
itself exits non-zero (the `"module was never installed"` situation). -/
def envRemoveCmdFail : Env := { envAllOk with
  run_command_output := fun _ args =>
    if args = ["status"] then .ok nvidiaStatusLine
    else .error (.commandExecutionError "dkms" "remove" 3) }

/-- Arguments with the order violated: old 6.15.4 above new 6.15.3. -/
def argsOrderBad : Arguments where
  command := none
  downloader := .curl
  suffix := "X"
  new := ⟨6, 15, 3⟩
  old := some ⟨6, 15, 4⟩

/-- Arguments for dkms-install with the required old version missing. -/
def argsDkmsMissingOld : Arguments where
  command := some .dkmsInstall
  downloader := .curl
  suffix := "X"
  new := ⟨6, 15, 4⟩
  old := none

/-! ### Decimal representation: basic lemmas -/

theorem digitVal_digitChar (d : Nat) (h : d < 10) : digitVal (digitChar d) = d := by
  interval_cases d <;> rfl

theorem isDigitChar_digitChar (d : Nat) (h : d < 10) : isDigitChar (digitChar d) = true := by
  interval_cases d <;> rfl

theorem isDigitChar_toNat {c : Char} (h : isDigitChar c = true) :
    48 ≤ c.toNat ∧ c.toNat ≤ 57 := by
  simpa [isDigitChar] using h

theorem digit_ne_dot {c : Char} (h : isDigitChar c = true) : c ≠ '.' := by
  rintro rfl
  exact absurd h (by decide)

theorem digit_not_ws {c : Char} (h : isDigitChar c = true) : isWsChar c = false := by
  obtain ⟨h1, _⟩ := isDigitChar_toNat h
  simp only [isWsChar, Bool.or_eq_false_iff, decide_eq_false_iff_not]
  refine ⟨⟨⟨?_, ?_⟩, ?_⟩, ?_⟩ <;> rintro rfl <;> simp at h1

theorem digitsAux_fuel (f₁ : Nat) :
    ∀ f₂ n, n < f₁ → n < f₂ → digitsAux f₁ n = digitsAux f₂ n := by
  induction f₁ with
  | zero => intro f₂ n h₁ _; omega
  | succ f ih =>
    intro f₂ n h₁ h₂
    cases f₂ with
    | zero => omega
    | succ g =>
      by_cases h : n < 10
      · simp [digitsAux, h]
      · have hdiv : n / 10 < n := Nat.div_lt_self (by omega) (by omega)
        simp only [digitsAux, if_neg h]
        rw [ih g (n / 10) (by omega) (by omega)]

theorem digitsAux_ne_nil (f n : Nat) (h : n < f) : digitsAux f n ≠ [] := by
  cases f with
  | zero => omega
  | succ g => by_cases h10 : n < 10 <;> simp [digitsAux, h10]

theorem digitsAux_digits (f : Nat) :
    ∀ n, n < f → ∀ c ∈ digitsAux f n, isDigitChar c = true := by
  induction f with
  | zero => intro n h; omega
  | succ g ih =>
    intro n h c hc
    by_cases h10 : n < 10
    · simp only [digitsAux, if_pos h10, List.mem_singleton] at hc
      exact hc ▸ isDigitChar_digitChar n h10
    · simp only [digitsAux, if_neg h10, List.mem_append, List.mem_singleton] at hc
      have hdiv : n / 10 < n := Nat.div_lt_self (by omega) (by omega)
      rcases hc with hc | hc
      · exact ih (n / 10) (by omega) c hc
      · exact hc ▸ isDigitChar_digitChar (n % 10) (Nat.mod_lt n (by omega))

theorem decNum_digitsAux (f : Nat) : ∀ n, n < f → decNum (digitsAux f n) = n := by
  induction f with
  | zero => intro n h; omega
  | succ g ih =>
    intro n h
    by_cases h10 : n < 10
    · simp only [digitsAux, if_pos h10, decNum, List.foldl_cons, List.foldl_nil]
      rw [Nat.mul_zero, Nat.zero_add, digitVal_digitChar n h10]
    · have hdiv : n / 10 < n := Nat.div_lt_self (by omega) (by omega)
      simp only [digitsAux, if_neg h10, decNum, List.foldl_append, List.foldl_cons,
        List.foldl_nil]
      have hrec : decNum (digitsAux g (n / 10)) = n / 10 := ih (n / 10) (by omega)
      rw [show List.foldl (fun acc c => 10 * acc + digitVal c) 0 (digitsAux g (n / 10)) =
          decNum (digitsAux g (n / 10)) from rfl, hrec,
        digitVal_digitChar (n % 10) (Nat.mod_lt n (by omega))]
      omega

theorem natStr_data (n : Nat) : (natStr n).data = digitsAux (n + 1) n := rfl

theorem natStr_data_digits (n : Nat) : ∀ c ∈ (natStr n).data, isDigitChar c = true :=
  digitsAux_digits (n + 1) n (by omega)

theorem natStr_data_ne_nil (n : Nat) : (natStr n).data ≠ [] :=
  digitsAux_ne_nil (n + 1) n (by omega)

theorem decNum_natStr (n : Nat) : decNum (natStr n).data = n :=
  decNum_digitsAux (n + 1) n (by omega)

theorem natStr_inj {a b : Nat} (h : natStr a = natStr b) : a = b := by
  have hd : (natStr a).data = (natStr b).data := congrArg String.data h
  have := congrArg decNum hd
  rwa [decNum_natStr, decNum_natStr] at this

theorem natStr_data_inj {a b : Nat} (h : (natStr a).data = (natStr b).data) : a = b :=
  natStr_inj (String.ext h)

theorem dot_not_mem_natStr (n : Nat) : '.' ∉ (natStr n).data := by
  intro hmem
  exact digit_ne_dot (natStr_data_digits n '.' hmem) rfl

/-! ### Rust `u32` parsing: round trip on canonical decimal strings -/

theorem parseU32_natStr (n : Nat) (h : n < 4294967296) : parseU32 (natStr n) = some n := by
  have hdig := natStr_data_digits n
  have hne := natStr_data_ne_nil n
  have hhead : ¬ (natStr n).data.head? = some '+' := by
    cases hl : (natStr n).data with
    | nil => simp
    | cons c t =>
      have hc : isDigitChar c = true := by
        apply hdig
        rw [hl]
        exact List.mem_cons_self c t
      obtain ⟨h48, _⟩ := isDigitChar_toNat hc
      simp only [List.head?, Option.some.injEq]
      rintro rfl
      simp at h48
  have hempty : (natStr n).data.isEmpty = false := by
    cases hl : (natStr n).data with
    | nil => exact absurd hl hne
    | cons c t => rfl
  have hall : (natStr n).data.all isDigitChar = true := List.all_eq_true.mpr hdig
  unfold parseU32
  simp only [if_neg hhead, hempty, Bool.false_eq_true, if_false, hall, if_true,
    decNum_natStr, if_pos h]

theorem parseU32_lt {s : String} {n : Nat} (h : parseU32 s = some n) : n < 4294967296 := by
  simp only [parseU32] at h
  repeat' split at h
  any_goals exact Option.noConfusion h
  all_goals
    injection h with h2
    subst h2
    assumption

/-! ### Trim: identity on whitespace-free strings -/

theorem dropWhile_eq_self_of_not {p : Char → Bool} {l : List Char}
    (h : ∀ c ∈ l, p c = false) : l.dropWhile p = l := by
  cases l with
  | nil => rfl
  | cons c t => simp [List.dropWhile_cons, h c (List.mem_cons_self c t)]

theorem trimChars_eq_self {l : List Char} (h : ∀ c ∈ l, isWsChar c = false) :
    trimChars l = l := by
  unfold trimChars
  rw [dropWhile_eq_self_of_not h, dropWhile_eq_self_of_not, List.reverse_reverse]
  intro c hc
  exact h c (List.mem_reverse.mp hc)

theorem rustTrim_natStr (n : Nat) : rustTrim (natStr n) = natStr n := by
  apply String.ext
  exact trimChars_eq_self (fun c hc => digit_not_ws (natStr_data_digits n c hc))

/-! ### Split: behaviour on separator-free pieces -/

theorem splitChars_no_sep {p : Char → Bool} {a : List Char} (h : ∀ c ∈ a, p c = false) :
    splitChars p a = [a] := by
  induction a with
  | nil => rfl
  | cons c t ih =>
    have hc : p c = false := h c (List.mem_cons_self c t)
    have ht : splitChars p t = [t] := ih (fun x hx => h x (List.mem_cons_of_mem c hx))
    simp [splitChars, hc, ht]

theorem splitChars_sep {p : Char → Bool} {a : List Char} (rest : List Char) {s : Char}
    (ha : ∀ c ∈ a, p c = false) (hs : p s = true) :
    splitChars p (a ++ s :: rest) = a :: splitChars p rest := by
  induction a with
  | nil => simp [splitChars, hs]
  | cons c t ih =>
    have hc : p c = false := ha c (List.mem_cons_self c t)
    have ht := ih (fun x hx => ha x (List.mem_cons_of_mem c hx))
    simp [splitChars, hc, ht]

/-- Splitting at a distinguished separator occurrence is unambiguous when
neither left part contains the separator. -/
theorem append_sep_inj {c : Char} :
    ∀ {l1 l2 r1 r2 : List Char}, c ∉ l1 → c ∉ l2 →
      l1 ++ c :: r1 = l2 ++ c :: r2 → l1 = l2 ∧ r1 = r2 := by
  intro l1
  induction l1 with
  | nil =>
    intro l2 r1 r2 _ h2 h
    cases l2 with
    | nil => simpa using h
    | cons y u =>
      simp only [List.nil_append, List.cons_append, List.cons.injEq] at h
      exact absurd (h.1 ▸ List.mem_cons_self y u) h2
  | cons x t ih =>
    intro l2 r1 r2 h1 h2 h
    cases l2 with
    | nil =>
      simp only [List.nil_append, List.cons_append, List.cons.injEq] at h
      exact absurd (h.1 ▸ List.mem_cons_self x t) h1
    | cons y u =>
      simp only [List.cons_append, List.cons.injEq] at h
      obtain ⟨rfl, h'⟩ := h
      obtain ⟨hl, hr⟩ := ih (fun hm => h1 (List.mem_cons_of_mem x hm))
        (fun hm => h2 (List.mem_cons_of_mem x hm)) h'
      exact ⟨by rw [hl], hr⟩

/-! ### The version rendering and its parse round trip -/

theorem versionToString_data (v : Version) :
    (versionToString v).data =
      (natStr v.major).data ++ '.' :: ((natStr v.minor).data ++ '.' :: (natStr v.patch).data) := by
  simp [versionToString, String.data_append, show ("." : String).data = ['.'] from rfl]

theorem rustSplit_versionToString (v : Version) :
    rustSplit (fun c => c = '.') (versionToString v) =
      [natStr v.major, natStr v.minor, natStr v.patch] := by
  have hnomaj : ∀ c ∈ (natStr v.major).data, (decide (c = '.')) = false := by
    intro c hc
    simp [digit_ne_dot (natStr_data_digits v.major c hc)]
  have hnomin : ∀ c ∈ (natStr v.minor).data, (decide (c = '.')) = false := by
    intro c hc
    simp [digit_ne_dot (natStr_data_digits v.minor c hc)]
  have hnopat : ∀ c ∈ (natStr v.patch).data, (decide (c = '.')) = false := by
    intro c hc
    simp [digit_ne_dot (natStr_data_digits v.patch c hc)]
  unfold rustSplit
  rw [versionToString_data,
    splitChars_sep _ hnomaj (by simp),
    splitChars_sep _ hnomin (by simp),
    splitChars_no_sep hnopat]
  rfl

theorem from_str_versionToString (v : Version)
    (h1 : v.major < 4294967296) (h2 : v.minor < 4294967296) (h3 : v.patch < 4294967296) :
    Version.from_str (versionToString v) = .ok v := by
  unfold Version.from_str
  rw [rustSplit_versionToString]
  simp only [parseComponents, rustTrim_natStr, parseU32_natStr v.major h1,
    parseU32_natStr v.minor h2, parseU32_natStr v.patch h3, Option.map_some]
  rfl

/-! ### Component-parsing characterisations -/

theorem parseComponents_none_iff (l : List String) :
    parseComponents l = none ↔ ∃ p ∈ l, parseU32 (rustTrim p) = none := by
  induction l with
  | nil => simp [parseComponents]
  | cons p rest ih =>
    cases hp : parseU32 (rustTrim p) with
    | none =>
      simp only [parseComponents, hp]
      constructor
      · intro _
        exact ⟨p, List.mem_cons_self p rest, hp⟩
      · intro _
        trivial
    | some n =>
      simp only [parseComponents, hp]
      constructor
      · intro h
        cases hr : parseComponents rest with
        | none =>
          obtain ⟨q, hq, hqn⟩ := ih.mp hr
          exact ⟨q, List.mem_cons_of_mem p hq, hqn⟩
        | some l' =>
          rw [hr] at h
          exact Option.noConfusion h
      · rintro ⟨q, hq, hqn⟩
        rcases List.mem_cons.mp hq with rfl | hq'
        · rw [hp] at hqn
          exact Option.noConfusion hqn
        · rw [ih.mpr ⟨q, hq', hqn⟩]
          rfl

theorem parseComponents_some_iff (l : List String) (l' : List Nat) :
    parseComponents l = some l' ↔ l.map (fun p => parseU32 (rustTrim p)) = l'.map some := by
  induction l generalizing l' with
  | nil => cases l' <;> simp [parseComponents]
  | cons p rest ih =>
    cases hp : parseU32 (rustTrim p) with
    | none =>
      simp only [parseComponents, hp, List.map_cons]
      constructor
      · intro h
        exact Option.noConfusion h
      · intro h
        cases l' with
        | nil => exact absurd h (by simp)
        | cons a t =>
          simp only [List.map_cons, List.cons.injEq, hp] at h
          exact Option.noConfusion h.1
    | some n =>
      simp only [parseComponents, hp, List.map_cons]
      constructor
      · intro h
        cases hr : parseComponents rest with
        | none =>
          rw [hr] at h
          exact Option.noConfusion h
        | some t' =>
          rw [hr] at h
          injection h with h'
          subst h'
          simp only [List.map_cons, hp]
          exact congrArg (some n :: ·) ((ih t').mp hr)
      · intro h
        cases l' with
        | nil => exact absurd h (by simp)
        | cons a t =>
          simp only [List.map_cons, List.cons.injEq, hp] at h
          obtain ⟨ha, ht⟩ := h
          injection ha with ha
          subst ha
          rw [(ih t).mpr ht]
          rfl

theorem from_str_ok_iff (s : String) (v : Version) :
    Version.from_str s = .ok v ↔
      (rustSplit (fun c => c = '.') s).map (fun p => parseU32 (rustTrim p)) =
        [some v.major, some v.minor, some v.patch] := by
  unfold Version.from_str
  constructor
  · intro h
    cases hc : parseComponents (rustSplit (fun c => c = '.') s) with
    | none =>
      rw [hc] at h
      exact Except.noConfusion h
    | some l' =>
      rw [hc] at h
      match l', h with
      | [a, b, c], h =>
        injection h with h'
        subst h'
        exact (parseComponents_some_iff _ _).mp hc
  · intro h
    have : parseComponents (rustSplit (fun c => c = '.') s) = some [v.major, v.minor, v.patch] :=
      (parseComponents_some_iff _ _).mpr (by simpa using h)
    rw [this]

/-! ### Derived-name field shapes and injectivity -/

theorem verPartStr_data_zero {v : Version} (h : v.patch = 0) :
    (verPartStr v).data = (natStr v.major).data ++ '.' :: (natStr v.minor).data := by
  simp [verPartStr, h, String.data_append, show ("." : String).data = ['.'] from rfl]

theorem verPartStr_data_pos {v : Version} (h : v.patch ≠ 0) :
    (verPartStr v).data =
      (natStr v.major).data ++ '.' :: ((natStr v.minor).data ++ '.' :: (natStr v.patch).data) := by
  simp only [verPartStr, if_neg h]
  exact versionToString_data v

theorem count_dot_natStr (n : Nat) : List.count '.' (natStr n).data = 0 :=
  List.count_eq_zero.mpr (dot_not_mem_natStr n)

theorem count_dot_verPartStr (v : Version) :
    List.count '.' (verPartStr v).data = if v.patch = 0 then 1 else 2 := by
  by_cases h : v.patch = 0
  · rw [if_pos h, verPartStr_data_zero h]
    simp [List.count_append, List.count_cons, count_dot_natStr]
  · rw [if_neg h, verPartStr_data_pos h]
    simp [List.count_append, List.count_cons, count_dot_natStr]

theorem verPartStr_inj {v w : Version} (h : verPartStr v = verPartStr w) : v = w := by
  have hd := congrArg String.data h
  by_cases hv : v.patch = 0 <;> by_cases hw : w.patch = 0
  · rw [verPartStr_data_zero hv, verPartStr_data_zero hw] at hd
    obtain ⟨h1, h2⟩ := append_sep_inj (dot_not_mem_natStr _) (dot_not_mem_natStr _) hd
    obtain ⟨vM, vN, vP⟩ := v
    obtain ⟨wM, wN, wP⟩ := w
    simp only [Version.mk.injEq]
    exact ⟨natStr_data_inj h1, natStr_data_inj h2, by simp_all⟩
  · have hc := congrArg (List.count '.') hd
    rw [show List.count '.' (verPartStr v).data = 1 by rw [count_dot_verPartStr, if_pos hv],
      show List.count '.' (verPartStr w).data = 2 by rw [count_dot_verPartStr, if_neg hw]] at hc
    omega
  · have hc := congrArg (List.count '.') hd
    rw [show List.count '.' (verPartStr v).data = 2 by rw [count_dot_verPartStr, if_neg hv],
      show List.count '.' (verPartStr w).data = 1 by rw [count_dot_verPartStr, if_pos hw]] at hc
    omega
  · rw [verPartStr_data_pos hv, verPartStr_data_pos hw] at hd
    obtain ⟨h1, h2⟩ := append_sep_inj (dot_not_mem_natStr _) (dot_not_mem_natStr _) hd
    obtain ⟨h3, h4⟩ := append_sep_inj (dot_not_mem_natStr _) (dot_not_mem_natStr _) h2
    obtain ⟨vM, vN, vP⟩ := v
    obtain ⟨wM, wN, wP⟩ := w
    simp only [Version.mk.injEq]
    exact ⟨natStr_data_inj h1, natStr_data_inj h3, natStr_data_inj h4⟩

theorem derive_src_dir_name (args : Arguments) :
    (Config.derive args).kernel_src_dir_name = "linux-" ++ verPartStr args.new := by
  simp only [Config.derive, verPartStr]
  by_cases h : args.new.patch = 0 <;> simp [h, String.append_assoc]

theorem derive_tarball_name (args : Arguments) :
    (Config.derive args).tarball_name = "linux-" ++ verPartStr args.new ++ ".tar.xz" := by
  simp only [Config.derive, verPartStr]
  by_cases h : args.new.patch = 0 <;> simp [h, String.append_assoc]

theorem derive_ident_new (args : Arguments) :
    (Config.derive args).kernel_ident_name_new = verPartStr args.new ++ "-" ++ args.suffix := by
  simp only [Config.derive, verPartStr]
  by_cases h : args.new.patch = 0 <;> simp [h, String.append_assoc]

theorem derive_ident_old (args : Arguments) :
    (Config.derive args).kernel_ident_name_old =
      args.old.map (fun v => versionToString v ++ "-" ++ args.suffix) := rfl

theorem derive_vmlinuz (args : Arguments) :
    (Config.derive args).vmlinuz_install_path =
      "/boot/vmlinuz-" ++ natStr args.new.major ++ "." ++ natStr args.new.minor := by
  simp only [Config.derive, pathJoin]
  apply String.ext
  simp [String.data_append, List.append_assoc]

theorem derive_version_new (args : Arguments) :
    (Config.derive args).version_new = args.new := rfl

theorem derive_suffix (args : Arguments) :
    (Config.derive args).custom_kernel_suffix = args.suffix := rfl

/-- Whenever `Config::new` succeeds, the result is exactly the derived
record for its arguments. -/
theorem config_new_ok_eq {args : Arguments} {c : Config} (h : Config.new args = .ok c) :
    c = Config.derive args := by
  unfold Config.new Config.validated at h
  repeat' split at h
  all_goals first
    | exact Except.noConfusion h
    | (injection h with h; exact h.symm)

/-- Right-cancellation transfer: equality of the suffixed identifiers
forces equality of the version cores. -/
theorem ident_new_inj {v w : Version} {s : String}
    (h : verPartStr v ++ "-" ++ s = verPartStr w ++ "-" ++ s) : v = w := by
  apply verPartStr_inj
  apply String.ext
  have hd := congrArg String.data h
  simp only [String.data_append] at hd
  exact List.append_cancel_right (List.append_cancel_right hd)

theorem src_dir_name_inj {v w : Version}
    (h : ("linux-" ++ verPartStr v : String) = "linux-" ++ verPartStr w) : v = w := by
  apply verPartStr_inj
  apply String.ext
  have hd := congrArg String.data h
  simp only [String.data_append] at hd
  exact List.append_cancel_left hd

theorem tarball_name_inj {v w : Version}
    (h : ("linux-" ++ verPartStr v ++ ".tar.xz" : String) =
      "linux-" ++ verPartStr w ++ ".tar.xz") : v = w := by
  apply verPartStr_inj
  apply String.ext
  have hd := congrArg String.data h
  simp only [String.data_append] at hd
  exact List.append_cancel_left (List.append_cancel_right hd)

/-- The boot-image name depends on exactly the major and minor
components. -/
theorem vmlinuz_inj_iff (v w : Version) :
    (("/boot/vmlinuz-" ++ natStr v.major ++ "." ++ natStr v.minor : String) =
      "/boot/vmlinuz-" ++ natStr w.major ++ "." ++ natStr w.minor) ↔
      v.major = w.major ∧ v.minor = w.minor := by
  constructor
  · intro h
    have hd := congrArg String.data h
    simp only [String.data_append] at hd
    have hd2 : ("/boot/vmlinuz-" : String).data ++
          ((natStr v.major).data ++ '.' :: (natStr v.minor).data) =
        ("/boot/vmlinuz-" : String).data ++
          ((natStr w.major).data ++ '.' :: (natStr w.minor).data) := by
      simpa [List.append_assoc, show ("." : String).data = ['.'] from rfl] using hd
    obtain ⟨h1, h2⟩ := append_sep_inj (dot_not_mem_natStr _) (dot_not_mem_natStr _)
      (List.append_cancel_left hd2)
    exact ⟨natStr_data_inj h1, natStr_data_inj h2⟩
  · rintro ⟨h1, h2⟩
    rw [h1, h2]

/-- The full identifier of a zero-patch version is strictly longer than
its truncated identifier, hence distinct. -/
theorem ident_trunc_ne_full {v : Version} (h : v.patch = 0) {s : String} :
    verPartStr v ++ "-" ++ s ≠ versionToString v ++ "-" ++ s := by
  intro he
  have hd := congrArg (fun t => t.data.length) he
  simp only [String.data_append, List.length_append] at hd
  rw [show (verPartStr v).data.length = (natStr v.major).data.length + 1 +
        (natStr v.minor).data.length by
      rw [verPartStr_data_zero h]
      simp [List.length_append]
      omega,
    show (versionToString v).data.length = (natStr v.major).data.length + 1 +
        ((natStr v.minor).data.length + 1 + (natStr v.patch).data.length) by
      rw [versionToString_data]
      simp [List.length_append]
      omega] at hd
  have : (natStr v.patch).data.length ≠ 0 := by
    intro h0
    exact natStr_data_ne_nil v.patch (List.eq_nil_of_length_eq_zero h0)
  omega

/-! ### Orchestrator: generic driver lemmas and agreement with `run` -/

theorem execStages_all_ok {results : Stage → Option (Except KernelUpdaterError Unit)}
    {l : List Stage} (h : ∀ s ∈ l, results s = some (.ok ())) :
    execStages results l = (l, some (.ok ())) := by
  induction l with
  | nil => rfl
  | cons s rest ih =>
    simp only [execStages, h s (List.mem_cons_self s rest)]
    rw [ih (fun t ht => h t (List.mem_cons_of_mem s ht))]

theorem execStages_first_error {results : Stage → Option (Except KernelUpdaterError Unit)}
    {pre : List Stage} {s : Stage} (post : List Stage) {e : KernelUpdaterError}
    (hpre : ∀ t ∈ pre, results t = some (.ok ()))
    (hs : results s = some (.error e)) :
    execStages results (pre ++ s :: post) = (pre ++ [s], some (.error e)) := by
  induction pre with
  | nil => simp [execStages, hs]
  | cons t rest ih =>
    have h1 := hpre t (List.mem_cons_self t rest)
    have h2 := ih (fun u hu => hpre u (List.mem_cons_of_mem t hu))
    simp [execStages, h1, h2, List.append_eq]

theorem runT_snd_eq_run (config : Config) (env : Env) :
    (runT config env).2 = run config env := by
  unfold runT run stagesFor
  rcases hcmd : config.command with _ | cmd
  case none =>
    simp only [hcmd]
    cases h1 : kernel_compile config env with
    | error e => simp [execStages, stageResult, h1]
    | ok u =>
      cases u
      cases h2 : kernel_install config env with
      | error e => simp [execStages, stageResult, h1, h2]
      | ok u =>
        cases u
        cases h3 : dkms_remove config env with
        | none => simp [execStages, stageResult, h1, h2, h3]
        | some r =>
          cases r with
          | error e => simp [execStages, stageResult, h1, h2, h3]
          | ok u =>
            cases u
            cases h4 : dkms_install config env with
            | error e =>
              simp [execStages, stageResult, h1, h2, h3, h4, Bind.bind, Except.bind]
            | ok u =>
              cases u
              cases h5 : mkinitcpio config env with
              | error e =>
                simp [execStages, stageResult, h1, h2, h3, h4, h5, Bind.bind, Except.bind]
              | ok u =>
                cases u
                cases h6 : update_grub env with
                | error e =>
                  simp [execStages, stageResult, h1, h2, h3, h4, h5, h6, Bind.bind, Except.bind]
                | ok u =>
                  cases u
                  simp [execStages, stageResult, h1, h2, h3, h4, h5, h6, Bind.bind, Except.bind]
  case some =>
    cases cmd with
    | kernelCompile =>
      simp only [hcmd]
      cases h1 : kernel_compile config env with
      | error e => simp [execStages, stageResult, h1]
      | ok u => cases u; simp [execStages, stageResult, h1]
    | kernelInstall =>
      simp only [hcmd]
      cases h2 : kernel_install config env with
      | error e => simp [execStages, stageResult, h2, Bind.bind, Except.bind]
      | ok u =>
        cases u
        cases h5 : mkinitcpio config env with
        | error e => simp [execStages, stageResult, h2, h5, Bind.bind, Except.bind]
        | ok u =>
          cases u
          cases h6 : update_grub env with
          | error e => simp [execStages, stageResult, h2, h5, h6, Bind.bind, Except.bind]
          | ok u => cases u; simp [execStages, stageResult, h2, h5, h6, Bind.bind, Except.bind]
    | dkmsInstall =>
      simp only [hcmd]
      cases h3 : dkms_remove config env with
      | none => simp [execStages, stageResult, h3]
      | some r =>
        cases r with
        | error e => simp [execStages, stageResult, h3]
        | ok u =>
          cases u
          cases h4 : dkms_install config env with
          | error e => simp [execStages, stageResult, h3, h4, Bind.bind, Except.bind]
          | ok u =>
            cases u
            cases h5 : mkinitcpio config env with
            | error e => simp [execStages, stageResult, h3, h4, h5, Bind.bind, Except.bind]
            | ok u =>
              cases u
              cases h6 : update_grub env with
              | error e =>
                simp [execStages, stageResult, h3, h4, h5, h6, Bind.bind, Except.bind]
              | ok u =>
                cases u
                simp [execStages, stageResult, h3, h4, h5, h6, Bind.bind, Except.bind]

/-! ### Configuration construction: validation behaviour -/

theorem validated_of_old_some {args : Arguments} {o : Version} (h : args.old = some o) :
    Config.validated args = .ok (Config.derive args) := by
  unfold Config.validated
  have hfalse : args.old.isNone = false := by rw [h]; rfl
  split <;> simp [hfalse]

theorem config_new_of_old_some {args : Arguments} {o : Version} (h : args.old = some o) :
    Config.new args =
      if Version.leb args.new o = true then
        .error (.versionComparisonError args.new o)
      else .ok (Config.derive args) := by
  unfold Config.new
  simp only [h, validated_of_old_some h]

theorem config_new_of_old_none {args : Arguments} (h : args.old = none) :
    Config.new args = Config.validated args := by
  unfold Config.new
  simp only [h]

/-- C3: configuration construction fails with the version-order error
carrying (new, old) exactly when an old version is present and the new
version is not strictly greater, regardless of the operation mode;
otherwise it fails with the missing-required-argument error for "--old"
exactly when the mode is dkms-install or the default full mode and the
old version is absent; and for kernel-compile or kernel-install with the
old version absent it succeeds with all fields derived. -/
theorem c3_config_validation :
    (∀ (args : Arguments) (o : Version), args.old = some o →
      (Config.new args = .error (.versionComparisonError args.new o) ↔
        Version.leb args.new o = true)) ∧
    (∀ (args : Arguments) (n o : Version), args.old = none →
      Config.new args ≠ .error (.versionComparisonError n o)) ∧
    (∀ args : Arguments, args.old = none →
      (Config.new args = .error (.missingRequiredArgument "--old" args.command) ↔
        (args.command = some .dkmsInstall ∨ args.command = none))) ∧
    (∀ (args : Arguments) (o : Version) (a : String) (cmd : Option Commands),
      args.old = some o → Config.new args ≠ .error (.missingRequiredArgument a cmd)) ∧
    (∀ args : Arguments, args.old = none →
      (args.command = some .kernelCompile ∨ args.command = some .kernelInstall) →
      Config.new args = .ok (Config.derive args)) := by
  refine ⟨?_, ?_, ?_, ?_, ?_⟩
  · intro args o hold
    rw [config_new_of_old_some hold]
    constructor
    · intro h
      by_contra hleb
      rw [if_neg hleb] at h
      exact Except.noConfusion h
    · intro h
      rw [if_pos h]
  · intro args n o hold h
    rw [config_new_of_old_none hold] at h
    unfold Config.validated at h
    repeat' split at h
    all_goals simp at h
  · intro args hold
    rw [config_new_of_old_none hold]
    unfold Config.validated
    have hnone : args.old.isNone = true := by rw [hold]; rfl
    rcases hcmd : args.command with _ | cmd
    · simp [hnone]
    · cases cmd <;> simp [hnone]
  · intro args o a cmd hold h
    rw [config_new_of_old_some hold] at h
    split at h
    · simp at h
    · exact Except.noConfusion h
  · intro args hold hcmd
    rw [config_new_of_old_none hold]
    unfold Config.validated
    rcases hcmd with hc | hc <;> rw [hc]

theorem c3_config_validation_witness :
    Config.new argsOrderBad = .error (.versionComparisonError ⟨6, 15, 3⟩ ⟨6, 15, 4⟩) ∧
    Config.new argsDkmsMissingOld =
      .error (.missingRequiredArgument "--old" (some .dkmsInstall)) ∧
    Config.new argsC4a = .ok (Config.derive argsC4a) :=
  ⟨(c3_config_validation.1 argsOrderBad ⟨6, 15, 4⟩ rfl).mpr (by decide),
    (c3_config_validation.2.2.1 argsDkmsMissingOld rfl).mpr (Or.inl rfl),
    c3_config_validation.2.2.2.2 argsC4a rfl (Or.inl rfl)⟩

/-- C4: for the new version 6.15.4 with suffix "X" the configuration
derives source-tree name "linux-6.15.4", tarball "linux-6.15.4.tar.xz"
and installed identifier "6.15.4-X"; for the zero-patch 6.15.0 with the
same suffix it derives the truncated "linux-6.15", "linux-6.15.tar.xz"
and "6.15-X"; and the boot-image path is "/boot/vmlinuz-6.15" in both
cases. -/
theorem c4_derived_names :
    Config.new argsC4a = .ok (Config.derive argsC4a) ∧
    (Config.derive argsC4a).kernel_src_dir_name = "linux-6.15.4" ∧
    (Config.derive argsC4a).tarball_name = "linux-6.15.4.tar.xz" ∧
    (Config.derive argsC4a).kernel_ident_name_new = "6.15.4-X" ∧
    (Config.derive argsC4a).vmlinuz_install_path = "/boot/vmlinuz-6.15" ∧
    Config.new argsC4b = .ok (Config.derive argsC4b) ∧
    (Config.derive argsC4b).kernel_src_dir_name = "linux-6.15" ∧
    (Config.derive argsC4b).tarball_name = "linux-6.15.tar.xz" ∧
    (Config.derive argsC4b).kernel_ident_name_new = "6.15-X" ∧
    (Config.derive argsC4b).vmlinuz_install_path = "/boot/vmlinuz-6.15" :=
  ⟨rfl, rfl, rfl, rfl, rfl, rfl, rfl, rfl, rfl, rfl⟩

/-- C10: dkms_remove is defined only under the precondition that the
configuration carries an old version: for every configuration with
version_old absent — such configurations are constructible through the
kernel-compile mode — the call hits the expect and panics, while on every
successfully constructed configuration with an old version present the
expect branches are not taken and the call returns a result. -/
theorem c10_dkms_remove_precondition :
    (∀ (c : Config) (env : Env), c.version_old = none → dkms_remove c env = none) ∧
    (Config.new argsC4a = .ok (Config.derive argsC4a) ∧
      (Config.derive argsC4a).version_old = none) ∧
    (∀ (args : Arguments) (c : Config) (env : Env), Config.new args = .ok c →
      c.version_old.isSome = true → (dkms_remove c env).isSome = true) := by
  refine ⟨?_, ⟨rfl, rfl⟩, ?_⟩
  · intro c env h
    unfold dkms_remove
    rw [h]
  · intro args c env hok hsome
    have hc := config_new_ok_eq hok
    subst hc
    rcases hold : args.old with _ | o
    · rw [show (Config.derive args).version_old = args.old from rfl, hold] at hsome
      simp at hsome
    · unfold dkms_remove
      have h1 : (Config.derive args).version_old = some o := by
        rw [show (Config.derive args).version_old = args.old from rfl, hold]
      have h2 : (Config.derive args).kernel_ident_name_old =
          some (versionToString o ++ "-" ++ args.suffix) := by
        rw [show (Config.derive args).kernel_ident_name_old =
          args.old.map (fun v => versionToString v ++ "-" ++ args.suffix) from rfl, hold]
        rfl
      rw [h1, h2]
      cases hg : get_nvidia_version env with
      | error e => rfl
      | ok v =>
        dsimp only
        cases env.run_command_output "dkms"
            ["remove", "nvidia/" ++ v, "-k", versionToString o ++ "-" ++ args.suffix] <;> rfl

theorem c10_dkms_remove_precondition_witness :
    dkms_remove (Config.derive argsC4a) envAllOk = none ∧
    (dkms_remove cfgFullX envAllOk).isSome = true :=
  ⟨c10_dkms_remove_precondition.1 (Config.derive argsC4a) envAllOk rfl,
    c10_dkms_remove_precondition.2.2 argsFullX cfgFullX envAllOk rfl rfl⟩

/-- C1 fails as stated: on a configuration with the old version present,
a failure inside the stage is not always caught — when the `dkms status`
query of the driver-version lookup exits non-zero, dkms_remove returns
that command-execution error instead of success. -/
theorem c1_dkms_remove_counterexample :
    cfgFullX.version_old = some ⟨6, 15, 3⟩ ∧
    Config.new argsFullX = .ok cfgFullX ∧
    envDkmsStatusCmdFail.run_command_output "dkms" ["status"] =
      .error (.commandExecutionError "dkms" "status" 1) ∧
    dkms_remove cfgFullX envDkmsStatusCmdFail =
      some (.error (.commandExecutionError "dkms" "status" 1)) :=
  ⟨rfl, rfl, rfl, rfl⟩

/-- C1 amended: with the old version present, every failure of the
removal command itself is caught and the stage returns success — whenever
the driver-version lookup succeeds, dkms_remove returns success no matter
what the removal command does; but a failure of the driver-version lookup
propagates as the stage's error and is not downgraded. -/
theorem c1_dkms_remove_amended :
    (∀ (c : Config) (env : Env) (vo : Version) (ko v : String),
      c.version_old = some vo → c.kernel_ident_name_old = some ko →
      get_nvidia_version env = .ok v →
      dkms_remove c env = some (.ok ())) ∧
    (∀ (c : Config) (env : Env) (vo : Version) (ko : String) (e : KernelUpdaterError),
      c.version_old = some vo → c.kernel_ident_name_old = some ko →
      get_nvidia_version env = .error e →
      dkms_remove c env = some (.error e)) := by
  constructor
  · intro c env vo ko v h1 h2 h3
    unfold dkms_remove
    rw [h1, h2, h3]
    dsimp only
    cases env.run_command_output "dkms" ["remove", "nvidia/" ++ v, "-k", ko] <;> rfl
  · intro c env vo ko e h1 h2 h3
    unfold dkms_remove
    rw [h1, h2, h3]

theorem c1_dkms_remove_amended_witness :
    get_nvidia_version envRemoveCmdFail = .ok "550.135" ∧
    envRemoveCmdFail.run_command_output "dkms"
      ["remove", "nvidia/550.135", "-k", "6.15.3-X"] =
      .error (.commandExecutionError "dkms" "remove" 3) ∧
    dkms_remove cfgFullX envRemoveCmdFail = some (.ok ()) :=
  ⟨rfl, rfl,
    c1_dkms_remove_amended.1 cfgFullX envRemoveCmdFail ⟨6, 15, 3⟩ "6.15.3-X" "550.135"
      rfl rfl rfl⟩

/-- C2: in full (default) mode the orchestrator executes exactly Compile,
Install, DkmsRemove, DkmsBuild, Initramfs, BootloaderUpdate in that
order: when every stage succeeds the trace is exactly that sequence; the
first failing stage ends the trace there and its error is the run's
outcome — in particular, when Compile succeeds and Install fails, the
trace is [Compile, Install], none of DkmsRemove, DkmsBuild, Initramfs,
BootloaderUpdate runs, and the outcome is Install's error; and the
instrumented trace runner agrees with the literal transcription of
`main::run`. -/
theorem c2_full_pipeline :
    stagesFor none =
      [.compile, .install, .dkmsRemove, .dkmsBuild, .initramfs, .bootloaderUpdate] ∧
    (∀ (c : Config) (env : Env), c.command = none →
      (∀ s, stageResult c env s = some (.ok ())) →
      runT c env =
        ([.compile, .install, .dkmsRemove, .dkmsBuild, .initramfs, .bootloaderUpdate],
          some (.ok ()))) ∧
    (∀ (c : Config) (env : Env) (pre post : List Stage) (s : Stage) (e : KernelUpdaterError),
      c.command = none →
      stagesFor none = pre ++ s :: post →
      (∀ t ∈ pre, stageResult c env t = some (.ok ())) →
      stageResult c env s = some (.error e) →
      runT c env = (pre ++ [s], some (.error e))) ∧
    (∀ (c : Config) (env : Env) (e : KernelUpdaterError),
      c.command = none →
      stageResult c env .compile = some (.ok ()) →
      stageResult c env .install = some (.error e) →
      runT c env = ([.compile, .install], some (.error e))) ∧
    (∀ (c : Config) (env : Env), (runT c env).2 = run c env) := by
  refine ⟨rfl, ?_, ?_, ?_, runT_snd_eq_run⟩
  · intro c env hc hall
    unfold runT
    rw [hc]
    exact execStages_all_ok (fun s _ => hall s)
  · intro c env pre post s e hc hsplit hpre hs
    unfold runT
    rw [hc, show stagesFor none = pre ++ s :: post from hsplit]
    exact execStages_first_error post hpre hs
  · intro c env e hc h1 h2
    unfold runT
    rw [hc]
    have hpre : ∀ t ∈ ([.compile] : List Stage), stageResult c env t = some (.ok ()) := by
      intro t ht
      rw [List.mem_singleton] at ht
      subst ht
      exact h1
    exact execStages_first_error [.dkmsRemove, .dkmsBuild, .initramfs, .bootloaderUpdate]
      hpre h2

theorem c2_full_pipeline_witness :
    cfgFullX.command = none ∧
    runT cfgFullX envAllOk =
      ([.compile, .install, .dkmsRemove, .dkmsBuild, .initramfs, .bootloaderUpdate],
        some (.ok ())) ∧
    runT cfgFullX envInstallFail =
      ([.compile, .install],
        some (.error (.commandExecutionError "make" "modules_install" 2))) :=
  ⟨rfl,
    c2_full_pipeline.2.1 cfgFullX envAllOk rfl (fun s => by cases s <;> rfl),
    c2_full_pipeline.2.2.2.1 cfgFullX envInstallFail
      (.commandExecutionError "make" "modules_install" 2) rfl rfl rfl⟩

/-- C9: on every successfully constructed configuration the Install and
DKMS-build stages recompute the installed identifier as
"major.minor.patch-suffix" with the patch always included (they do not
read the derived kernel_ident_name_new); the two stages agree with each
other, and the identifier they use equals the configuration's
kernel_ident_name_new exactly when the new version's patch is non-zero —
for a zero-patch new version the stages use the full "M.N.0-suffix" form
while the configuration derives the truncated "M.N-suffix". -/
theorem c9_stage_ident_refinement (args : Arguments) (c : Config)
    (hok : Config.new args = .ok c) :
    kernelInstallIdentName c =
      versionToString c.version_new ++ "-" ++ c.custom_kernel_suffix ∧
    dkmsKernelNameNew c = kernelInstallIdentName c ∧
    (kernelInstallIdentName c = c.kernel_ident_name_new ↔ c.version_new.patch ≠ 0) := by
  have hc := config_new_ok_eq hok
  subst hc
  refine ⟨rfl, rfl, ?_⟩
  rw [derive_ident_new]
  show versionToString args.new ++ "-" ++ args.suffix =
      verPartStr args.new ++ "-" ++ args.suffix ↔ args.new.patch ≠ 0
  constructor
  · intro h hzero
    exact ident_trunc_ne_full hzero h.symm
  · intro h
    rw [verPartStr, if_neg h]

theorem c9_stage_ident_refinement_witness :
    kernelInstallIdentName (Config.derive argsC4a) =
      (Config.derive argsC4a).kernel_ident_name_new ∧
    kernelInstallIdentName (Config.derive argsC4b) = "6.15.0-X" ∧
    (Config.derive argsC4b).kernel_ident_name_new = "6.15-X" ∧
    kernelInstallIdentName (Config.derive argsC4b) ≠
      (Config.derive argsC4b).kernel_ident_name_new :=
  ⟨(c9_stage_ident_refinement argsC4a (Config.derive argsC4a) rfl).2.2.mpr (by decide),
    rfl, rfl,
    fun h =>
      absurd rfl ((c9_stage_ident_refinement argsC4b (Config.derive argsC4b) rfl).2.2.mp h)⟩

/-- C5 fails as stated: the boot-image path is not injective in the
version — the distinct versions 6.15.0 and 6.15.4 with the same suffix
"X" derive the same "/boot/vmlinuz-6.15" — and a zero-patch version's
identifier is not stable across positions: 6.15.0 derives "6.15-X" as the
new member but "6.15.0-X" as the old member of the pair. -/
theorem c5_name_derivation_counterexample :
    Config.new argsC4b = .ok (Config.derive argsC4b) ∧
    Config.new argsC4a = .ok (Config.derive argsC4a) ∧
    Config.new argsOldZero = .ok (Config.derive argsOldZero) ∧
    argsC4b.suffix = argsC4a.suffix ∧
    argsC4b.new ≠ argsC4a.new ∧
    (Config.derive argsC4b).vmlinuz_install_path =
      (Config.derive argsC4a).vmlinuz_install_path ∧
    argsOldZero.old = some argsC4b.new ∧
    argsOldZero.suffix = argsC4b.suffix ∧
    (Config.derive argsC4b).kernel_ident_name_new = "6.15-X" ∧
    (Config.derive argsOldZero).kernel_ident_name_old = some "6.15.0-X" ∧
    ("6.15-X" : String) ≠ "6.15.0-X" :=
  ⟨rfl, rfl, rfl, rfl, by decide, rfl, rfl, rfl, rfl, rfl, by decide⟩

/-- C5 amended: with the suffix fixed, the source-tree name, tarball name
and new-kernel identifier are injective in the version and all derived
names are deterministic (they depend only on the new version and the
suffix); the boot-image paths coincide exactly when major and minor
agree, so versions differing only in patch collide; and a version's
identifier in the old position is always the full "M.N.P-suffix", which
matches the new-position derivation exactly when its patch is non-zero. -/
theorem c5_name_derivation_amended :
    (∀ (args args' : Arguments) (c c' : Config),
      Config.new args = .ok c → Config.new args' = .ok c' →
      args.suffix = args'.suffix →
      ((c.kernel_src_dir_name = c'.kernel_src_dir_name → args.new = args'.new) ∧
        (c.tarball_name = c'.tarball_name → args.new = args'.new) ∧
        (c.kernel_ident_name_new = c'.kernel_ident_name_new → args.new = args'.new) ∧
        (c.vmlinuz_install_path = c'.vmlinuz_install_path ↔
          args.new.major = args'.new.major ∧ args.new.minor = args'.new.minor))) ∧
    (∀ (args args' : Arguments) (c c' : Config),
      Config.new args = .ok c → Config.new args' = .ok c' →
      args.suffix = args'.suffix → args.new = args'.new →
      c.kernel_src_dir_name = c'.kernel_src_dir_name ∧
      c.tarball_name = c'.tarball_name ∧
      c.kernel_ident_name_new = c'.kernel_ident_name_new ∧
      c.vmlinuz_install_path = c'.vmlinuz_install_path) ∧
    (∀ (args : Arguments) (c : Config) (o : Version),
      Config.new args = .ok c → args.old = some o →
      c.kernel_ident_name_old = some (versionToString o ++ "-" ++ args.suffix) ∧
      ((versionToString o ++ "-" ++ args.suffix : String) =
          verPartStr o ++ "-" ++ args.suffix ↔ o.patch ≠ 0)) := by
  refine ⟨?_, ?_, ?_⟩
  · intro args args' c c' hok hok' hsuf
    have hc := config_new_ok_eq hok
    have hc' := config_new_ok_eq hok'
    subst hc
    subst hc'
    refine ⟨?_, ?_, ?_, ?_⟩
    · intro h
      rw [derive_src_dir_name, derive_src_dir_name] at h
      exact src_dir_name_inj h
    · intro h
      rw [derive_tarball_name, derive_tarball_name] at h
      exact tarball_name_inj h
    · intro h
      rw [derive_ident_new, derive_ident_new, ← hsuf] at h
      exact ident_new_inj h
    · rw [derive_vmlinuz, derive_vmlinuz]
      exact vmlinuz_inj_iff args.new args'.new
  · intro args args' c c' hok hok' hsuf hnew
    have hc := config_new_ok_eq hok
    have hc' := config_new_ok_eq hok'
    subst hc
    subst hc'
    rw [derive_src_dir_name, derive_src_dir_name, derive_tarball_name, derive_tarball_name,
      derive_ident_new, derive_ident_new, derive_vmlinuz, derive_vmlinuz, hsuf, hnew]
    exact ⟨rfl, rfl, rfl, rfl⟩
  · intro args c o hok hold
    have hc := config_new_ok_eq hok
    subst hc
    refine ⟨?_, ?_⟩
    · rw [derive_ident_old, hold]
      rfl
    · constructor
      · intro h hzero
        exact ident_trunc_ne_full hzero h.symm
      · intro h
        rw [verPartStr, if_neg h]

theorem c5_name_derivation_amended_witness :
    (Config.derive argsC4b).vmlinuz_install_path =
      (Config.derive argsC4a).vmlinuz_install_path ∧
    argsC4b.new.major = argsC4a.new.major ∧ argsC4b.new.minor = argsC4a.new.minor ∧
    (Config.derive argsFullX).kernel_ident_name_old = some "6.15.3-X" :=
  ⟨rfl,
    ((c5_name_derivation_amended.1 argsC4b argsC4a (Config.derive argsC4b)
      (Config.derive argsC4a) rfl rfl rfl).2.2.2.mp rfl).1,
    ((c5_name_derivation_amended.1 argsC4b argsC4a (Config.derive argsC4b)
      (Config.derive argsC4a) rfl rfl rfl).2.2.2.mp rfl).2,
    (c5_name_derivation_amended.2.2 argsFullX (Config.derive argsFullX) ⟨6, 15, 3⟩
      rfl rfl).1⟩

/-! ### Version parsing: precedence of the two error kinds -/

theorem parseComponents_isSome {l : List String} {l' : List Nat}
    (h : parseComponents l = some l') :
    ∀ p ∈ l, (parseU32 (rustTrim p)).isSome = true := by
  intro p hp
  rcases hcase : parseU32 (rustTrim p) with _ | n
  · have hnone : parseComponents l = none := (parseComponents_none_iff l).mpr ⟨p, hp, hcase⟩
    rw [hnone] at h
    exact Option.noConfusion h
  · rfl

theorem parseComponents_of_isSome :
    ∀ l : List String, (∀ p ∈ l, (parseU32 (rustTrim p)).isSome = true) →
      ∃ l', parseComponents l = some l' ∧ l'.length = l.length := by
  intro l
  induction l with
  | nil => intro _; exact ⟨[], rfl, rfl⟩
  | cons p rest ih =>
    intro h
    obtain ⟨l', hl', hlen⟩ := ih (fun q hq => h q (List.mem_cons_of_mem p hq))
    have hp := h p (List.mem_cons_self p rest)
    rcases hcase : parseU32 (rustTrim p) with _ | n
    · rw [hcase] at hp
      exact absurd hp (by simp)
    · exact ⟨n :: l', by simp [parseComponents, hcase, hl'], by simp [hlen]⟩

/-- C6 fails as stated: the input "6.x" splits into two components, so
the claim requires the format error, but the implementation parses the
components first and reports the integer error. -/
theorem c6_parse_errors_counterexample :
    (rustSplit (fun c => c = '.') "6.x").length = 2 ∧
    Version.from_str "6.x" = .error .versionParseIntError ∧
    (KernelUpdaterError.versionParseIntError ≠ .versionParseFormatError "6.x") :=
  ⟨rfl, rfl, by decide⟩

/-- C6 amended: an input any of whose trimmed components fails to parse
as a u32 gives the integer error — component parsing takes precedence
even when the component count is also wrong; the format error occurs
exactly for inputs whose components all parse but whose count is not
three; and parsing succeeds exactly when the three trimmed components
parse, yielding them in order. -/
theorem c6_parse_errors_amended :
    (∀ s, (∃ p ∈ rustSplit (fun c => c = '.') s, parseU32 (rustTrim p) = none) →
      Version.from_str s = .error .versionParseIntError) ∧
    (∀ s, Version.from_str s = .error (.versionParseFormatError s) ↔
      ((∀ p ∈ rustSplit (fun c => c = '.') s, (parseU32 (rustTrim p)).isSome = true) ∧
        (rustSplit (fun c => c = '.') s).length ≠ 3)) ∧
    (∀ s v, Version.from_str s = .ok v ↔
      (rustSplit (fun c => c = '.') s).map (fun p => parseU32 (rustTrim p)) =
        [some v.major, some v.minor, some v.patch]) := by
  refine ⟨?_, ?_, from_str_ok_iff⟩
  · intro s hex
    unfold Version.from_str
    rw [(parseComponents_none_iff _).mpr hex]
  · intro s
    constructor
    · intro h
      unfold Version.from_str at h
      cases hc : parseComponents (rustSplit (fun c => c = '.') s) with
      | none =>
        rw [hc] at h
        injection h with h'
        exact absurd h' (by simp)
      | some l' =>
        rw [hc] at h
        have hall := parseComponents_isSome hc
        have hlen : l'.length = (rustSplit (fun c => c = '.') s).length := by
          have hm := (parseComponents_some_iff _ _).mp hc
          have := congrArg List.length hm
          simpa using this.symm
        refine ⟨hall, ?_⟩
        intro h3
        obtain ⟨a, b, cc, rfl⟩ := List.length_eq_three.mp (show l'.length = 3 by omega)
        exact Except.noConfusion h
    · rintro ⟨hall, hlen⟩
      obtain ⟨l', hl', hlen'⟩ := parseComponents_of_isSome _ hall
      unfold Version.from_str
      rw [hl']
      rcases l' with _ | ⟨a, _ | ⟨b, _ | ⟨cc, _ | ⟨d, rest⟩⟩⟩⟩
      · rfl
      · rfl
      · rfl
      · exact absurd hlen'.symm hlen
      · rfl

theorem c6_parse_errors_amended_witness :
    Version.from_str "6.x" = .error .versionParseIntError ∧
    Version.from_str "6.15" = .error (.versionParseFormatError "6.15") ∧
    Version.from_str "6.15.3.1" = .error (.versionParseFormatError "6.15.3.1") ∧
    Version.from_str "6.15.3" = .ok ⟨6, 15, 3⟩ :=
  ⟨c6_parse_errors_amended.1 "6.x" ⟨"x", by decide, rfl⟩,
    (c6_parse_errors_amended.2.1 "6.15").mpr (by decide),
    (c6_parse_errors_amended.2.1 "6.15.3.1").mpr (by decide),
    (c6_parse_errors_amended.2.2 "6.15.3" ⟨6, 15, 3⟩).mpr (by decide)⟩

/-! ### Round trip of parsing and formatting -/

theorem from_str_ok_bounds {s : String} {v : Version} (h : Version.from_str s = .ok v) :
    v.major < 4294967296 ∧ v.minor < 4294967296 ∧ v.patch < 4294967296 := by
  have hm := (from_str_ok_iff s v).mp h
  rcases hl : rustSplit (fun c => c = '.') s with _ | ⟨p, t⟩ <;> rw [hl] at hm
  · simp at hm
  rcases t with _ | ⟨q, t⟩
  · simp at hm
  rcases t with _ | ⟨r, t⟩
  · simp at hm
  rcases t with _ | ⟨w, t⟩
  · simp only [List.map_cons, List.map_nil, List.cons.injEq, and_true] at hm
    obtain ⟨h1, h2, h3⟩ := hm
    exact ⟨parseU32_lt h1, parseU32_lt h2, parseU32_lt h3⟩
  · simp at hm

/-- C7 fails as stated: "6.015.3" parses successfully (to 6.15.3) yet
formatting the parsed version gives "6.15.3", which differs from the
whitespace-trimmed input "6.015.3". -/
theorem c7_round_trip_counterexample :
    Version.from_str "6.015.3" = .ok ⟨6, 15, 3⟩ ∧
    versionToString ⟨6, 15, 3⟩ = "6.15.3" ∧
    rustTrim "6.015.3" = "6.015.3" ∧
    ("6.15.3" : String) ≠ "6.015.3" :=
  ⟨rfl, rfl, rfl, by decide⟩

/-- C7 amended: format always renders "major.minor.patch" and is a right
inverse of parse on parse's image — reparsing the formatted form of any
successfully parsed version returns exactly that version; the literal
equation format(parse(text)) = trim(text) holds only for canonical
component spellings (no leading zeros, no sign, no inner whitespace). -/
theorem c7_round_trip_amended (s : String) (v : Version)
    (h : Version.from_str s = .ok v) :
    Version.from_str (versionToString v) = .ok v := by
  obtain ⟨h1, h2, h3⟩ := from_str_ok_bounds h
  exact from_str_versionToString v h1 h2 h3

theorem c7_round_trip_amended_witness :
    Version.from_str " 6 . 15 . 3 " = .ok ⟨6, 15, 3⟩ ∧
    Version.from_str (versionToString ⟨6, 15, 3⟩) = .ok ⟨6, 15, 3⟩ :=
  ⟨rfl, c7_round_trip_amended " 6 . 15 . 3 " ⟨6, 15, 3⟩ rfl⟩

/-! ### DKMS status parsing -/

/-- C8 fails as stated: the status text "nvidia driver" has no line
beginning with "nvidia/", so the claim requires the module-absent error,
but because the text contains the substring "nvidia" the implementation
reports the status-parse error instead. -/
theorem c8_status_parsing_counterexample :
    (∀ line ∈ rustLines "nvidia driver", startsWithStr line "nvidia/" = false) ∧
    get_nvidia_version (statusEnv "nvidia driver") =
      .error (.dkmsStatusParseError "nvidia driver"
        "Could not extract version from line format") ∧
    (KernelUpdaterError.dkmsStatusParseError "nvidia driver"
        "Could not extract version from line format" ≠
      KernelUpdaterError.dkmsModuleNotFound) :=
  ⟨by decide, rfl, by decide⟩

/-- C8 amended: on the example status line the extracted module version
is exactly "550.135" (the token between the slash and the next comma);
a status text not containing the substring "nvidia" anywhere fails with
the module-absent error; a text containing "nvidia" none of whose lines
both trims to a "nvidia/" beginning and contains a comma fails with the
status-parse error — in particular a "nvidia/" line with no comma. -/
theorem c8_status_parsing_amended :
    get_nvidia_version (statusEnv nvidiaStatusLine) = .ok "550.135" ∧
    (∀ text, containsSub text "nvidia" = false →
      get_nvidia_version (statusEnv text) = .error .dkmsModuleNotFound) ∧
    (∀ text, containsSub text "nvidia" = true →
      (∀ line ∈ rustLines text,
        (startsWithStr (rustTrim line) "nvidia/" && line.data.contains ',') = false) →
      get_nvidia_version (statusEnv text) =
        .error (.dkmsStatusParseError text "Could not extract version from line format")) ∧
    get_nvidia_version (statusEnv "nvidia/550.135 broken") =
      .error (.dkmsStatusParseError "nvidia/550.135 broken"
        "Could not extract version from line format") := by
  refine ⟨rfl, ?_, ?_, rfl⟩
  · intro text h
    unfold get_nvidia_version
    simp only [statusEnv, Bind.bind, Except.bind]
    rw [if_pos (by simp [h])]
    rfl
  · intro text h hlines
    have hfind : (rustLines text).find?
        (fun line => startsWithStr (rustTrim line) "nvidia/" && line.data.contains ',') =
          none := by
      rw [List.find?_eq_none]
      intro line hline hp
      rw [hlines line hline] at hp
      exact Bool.noConfusion hp
    unfold get_nvidia_version
    simp only [statusEnv, Bind.bind, Except.bind]
    rw [if_neg (by simp [h])]
    rw [hfind]
    rfl

theorem c8_status_parsing_amended_witness :
    get_nvidia_version (statusEnv "vboxdrv stuff") = .error .dkmsModuleNotFound ∧
    get_nvidia_version
        (statusEnv "foo\nnvidia/560.1, 6.12.4-X, x86_64: installed\nbar") =
      .ok "560.1" :=
  ⟨c8_status_parsing_amended.2.1 "vboxdrv stuff" rfl, rfl⟩

end KernelUpdater
